import Mathlib

/-!
# go-ranger: health-check aggregation and database configuration

A shallow embedding of `fdhttp/health_check_handler.go` and `fddb/config.go`,
followed by the properties established about them.

Conventions of the embedding:

* a Go `map[string]V` is a `GoMap V`: a list of bindings whose keys are pairwise
  distinct (`GoMap.WF`).  The list order stands for the order in which `range`
  visits the map, which Go leaves unspecified; statements about iteration order
  quantify over permutations of the list.
* a Go `interface{}` value is an `Any`.
* a Go `error` is an `Option GoError`, `none` being `nil`.
* a Go `panic(e)` is `Except.error e`.
* `time.Now()` reads an explicit clock `now : Nat → Int` (nanoseconds); the
  `i`-th reading of a run is `now i`.  A `time.Duration` is an integer number of
  nanoseconds, and the division by `time.Millisecond` truncates toward zero.
* a handler is one made by `NewHealthCheckHandler`, so its registry is an
  allocated map.
-/

namespace GoRanger

/-! ## Go maps -/

/-- A Go `map[string]V`, kept as the list of its bindings. -/
abbrev GoMap (V : Type) := List (String × V)

namespace GoMap

variable {V : Type}

/-- The keys of the map, in iteration order. -/
def keys (m : GoMap V) : List String := m.map Prod.fst

/-- The map invariant: no key is bound twice. -/
def WF (m : GoMap V) : Prop := m.keys.Nodup

/-- Map read `m[key]`, with the "comma ok" result as an `Option`. -/
def get : GoMap V → String → Option V
  | [], _ => none
  | (k, v) :: m, key => if k = key then some v else get m key

/-- Map assignment `m[key] = val`: an existing binding is replaced, a new key is added. -/
def set : GoMap V → String → V → GoMap V
  | [], key, val => [(key, val)]
  | (k, v) :: m, key, val => if k = key then (key, val) :: m else (k, v) :: set m key val

/-- The builtin `len(m)`. -/
def len (m : GoMap V) : Nat := m.length

end GoMap

/-! ## fdhttp/health_check_handler.go -/

/-- A Go `interface{}` value: `nil`, a string, or any other value, which is
identified by its JSON encoding. -/
inductive Any where
  | nil
  | str (s : String)
  | other (encoded : String)
  deriving DecidableEq, Repr

/-- A non-nil Go `error` value.  `Error` is what its `Error()` method returns.
`Detail` is `some d` when the dynamic type also has the method
`Detail() interface{}` (so that the value implements `HealthCheckServiceError`)
and that method returns `d`; it is `none` when the type has no such method. -/
structure GoError where
  Error : String
  Detail : Option Any
  deriving DecidableEq, Repr

/-- The interface `HealthCheckService`: a service is given by what its
`HealthCheck()` method returns, the pair `(detail, err)`. -/
structure HealthCheckService where
  HealthCheck : Any × Option GoError
  deriving DecidableEq, Repr

/-- The anonymous struct of the `Version` field. -/
structure VersionInfo where
  Tag : String
  Commit : String
  deriving DecidableEq, Repr

/-- The struct `HealthCheckServiceResponse`. -/
structure HealthCheckServiceResponse where
  Status : Bool
  Elapsed : Int
  Detail : Any
  Error : Any
  deriving DecidableEq, Repr

/-- The struct `HealthCheckResponse`. -/
structure HealthCheckResponse where
  Status : Bool
  Version : VersionInfo
  Elapsed : Int
  Checks : GoMap HealthCheckServiceResponse
  deriving DecidableEq, Repr

/-- The struct `HealchCheckHandler`. -/
structure HealchCheckHandler where
  Prefix : String
  tag : String
  commit : String
  services : GoMap HealthCheckService
  deriving DecidableEq, Repr

/-- The constant `http.StatusOK`. -/
def StatusOK : Nat := 200

/-- The constant `http.StatusServiceUnavailable`. -/
def StatusServiceUnavailable : Nat := 503

/-- The constant `time.Millisecond`, in nanoseconds. -/
def Millisecond : Int := 1000000

/-- The function `NewHealthCheckHandler`. -/
def NewHealthCheckHandler (tag commit : String) : HealchCheckHandler :=
  { Prefix := "", tag := tag, commit := commit, services := [] }

/-- The method `Register`: `h.services[name] = s`. -/
def HealchCheckHandler.Register (h : HealchCheckHandler) (name : String)
    (s : HealthCheckService) : HealchCheckHandler :=
  { h with services := h.services.set name s }

/-- The variables that the loop of `Get` updates: the status code, the response,
and the number of clock readings taken so far. -/
structure GetLoop where
  statusCode : Nat
  resp : HealthCheckResponse
  tick : Nat
  deriving DecidableEq, Repr

/-- One iteration of the `for name, s := range h.services` loop of `Get`. -/
def HealchCheckHandler.Get.body (now : Nat → Int) (serviceParam : String)
    (st : GetLoop) (entry : String × HealthCheckService) : GetLoop :=
  let name := entry.1
  let s := entry.2
  if serviceParam ≠ "" ∧ name ≠ serviceParam then
    st
  else
    let started := now st.tick
    let serviceCheck : HealthCheckServiceResponse :=
      { Status := true, Elapsed := 0, Detail := Any.nil, Error := Any.nil }
    let detail := s.HealthCheck.1
    let err := s.HealthCheck.2
    let statusCode := if err.isSome then StatusServiceUnavailable else st.statusCode
    let respStatus := if err.isSome then false else st.resp.Status
    let serviceCheck : HealthCheckServiceResponse :=
      match err with
      | some e =>
        match e.Detail with
        | some d => { serviceCheck with Status := false, Error := d }
        | none => { serviceCheck with Status := false, Error := Any.str e.Error }
      | none => { serviceCheck with Detail := detail }
    let serviceCheck : HealthCheckServiceResponse :=
      { serviceCheck with Elapsed := Int.tdiv (now (st.tick + 1) - started) Millisecond }
    { statusCode := statusCode
      resp := { st.resp with
        Status := respStatus
        Checks := st.resp.Checks.set name serviceCheck }
      tick := st.tick + 2 }

/-- The method `Get`.  `serviceParam` is the value of `RouteParam(ctx, "service")`,
the empty string when the route has no such parameter.  The result is the
triple `(statusCode, resp, err)` that the Go method returns. -/
def HealchCheckHandler.Get (h : HealchCheckHandler) (now : Nat → Int)
    (serviceParam : String) : Nat × HealthCheckResponse × Option GoError :=
  let started := now 0
  let st : GetLoop :=
    { statusCode := StatusOK
      resp :=
        { Status := true
          Version := { Tag := h.tag, Commit := h.commit }
          Elapsed := 0
          Checks := [] }
      tick := 1 }
  let st := h.services.foldl (HealchCheckHandler.Get.body now serviceParam) st
  let resp : HealthCheckResponse :=
    { st.resp with Elapsed := Int.tdiv (now st.tick - started) Millisecond }
  (st.statusCode, resp, none)

/-! ## fddb/config.go -/

/-- The struct `MysqlOptions`; a `time.Duration` is a number of nanoseconds. -/
structure MysqlOptions where
  Timeout : Int
  ReadTimeout : Int
  WriteTimeout : Int
  RejectReadOnly : Bool
  deriving DecidableEq, Repr

/-- The struct `DBConfig`. -/
structure DBConfig where
  initialized : Int
  Driver : String
  Host : String
  Port : String
  Addrs : List String
  User : String
  Password : String
  DB : String
  MysqlOptions : MysqlOptions
  deriving DecidableEq, Repr

/-- The zero value of `DBConfig`, which a composite literal starts from. -/
def DBConfig.zero : DBConfig :=
  { initialized := 0, Driver := "", Host := "", Port := "", Addrs := [], User := "",
    Password := "", DB := "",
    MysqlOptions := { Timeout := 0, ReadTimeout := 0, WriteTimeout := 0, RejectReadOnly := false } }

/-- The package variable `availableDrivers`, as declared. -/
def availableDrivers : GoMap DBConfig :=
  [ ("mysql", { DBConfig.zero with Port := "3306" }),
    ("postgres", { DBConfig.zero with Port := "5432" }),
    ("mongodb", { DBConfig.zero with Port := "27017" }),
    ("redis", { DBConfig.zero with Port := "6379" }) ]

/-- The values that `init` panics with: the package variables
`ErrNoDriverSpecified`, `ErrUnknownDriver` and `ErrInvalidPort`. -/
inductive PanicValue where
  | ErrNoDriverSpecified
  | ErrUnknownDriver
  | ErrInvalidPort
  deriving DecidableEq, Repr

/-- The first block of `init` after the driver lookup: the default host. -/
def DBConfig.init.fillHost (defaultCfg c : DBConfig) : DBConfig :=
  if c.Addrs.length = 0 ∧ c.Host = "" then
    if defaultCfg.Host ≠ "" then { c with Host := defaultCfg.Host }
    else { c with Host := "127.0.0.1" }
  else c

/-- The second block of `init`: the default port, or the panic `ErrInvalidPort`. -/
def DBConfig.init.fillPort (defaultCfg c : DBConfig) : Except PanicValue DBConfig :=
  if c.Host ≠ "" ∧ c.Port = "" then
    if defaultCfg.Port ≠ "" then Except.ok { c with Port := defaultCfg.Port }
    else Except.error PanicValue.ErrInvalidPort
  else Except.ok c

/-- The third block of `init`: the default user. -/
def DBConfig.init.fillUser (defaultCfg c : DBConfig) : DBConfig :=
  if c.User = "" then
    if defaultCfg.User ≠ "" then { c with User := defaultCfg.User }
    else { c with User := "root" }
  else c

/-- The method `init`.  The package variable `availableDrivers` that it reads is
passed as `drivers`; a panic is an `Except.error`. -/
def DBConfig.init (c : DBConfig) (drivers : GoMap DBConfig) : Except PanicValue DBConfig :=
  if c.Driver = "" then
    Except.error PanicValue.ErrNoDriverSpecified
  else
    match drivers.get c.Driver with
    | none => Except.error PanicValue.ErrUnknownDriver
    | some defaultCfg =>
      match DBConfig.init.fillPort defaultCfg (DBConfig.init.fillHost defaultCfg c) with
      | Except.error e => Except.error e
      | Except.ok c => Except.ok (DBConfig.init.fillUser defaultCfg c)

/-- The method `mySqlConnString`.  `durationString` stands for the library method
`time.Duration.String`. -/
def DBConfig.mySqlConnString (durationString : Int → String) (c : DBConfig)
    (host usrPwd : String) : String :=
  let dsnParams : List String := []
  let dsnParams :=
    if c.MysqlOptions.Timeout ≠ 0 then
      dsnParams ++ ["timeout=" ++ durationString c.MysqlOptions.Timeout]
    else dsnParams
  let dsnParams :=
    if c.MysqlOptions.ReadTimeout ≠ 0 then
      dsnParams ++ ["readTimeout=" ++ durationString c.MysqlOptions.ReadTimeout]
    else dsnParams
  let dsnParams :=
    if c.MysqlOptions.WriteTimeout ≠ 0 then
      dsnParams ++ ["writeTimeout=" ++ durationString c.MysqlOptions.WriteTimeout]
    else dsnParams
  let dsnParams :=
    if c.MysqlOptions.RejectReadOnly then dsnParams ++ ["rejectReadOnly=true"]
    else dsnParams
  if dsnParams.length > 0 then
    usrPwd ++ "@tcp(" ++ host ++ ")/" ++ c.DB ++ "?" ++ String.intercalate "&" dsnParams
  else
    usrPwd ++ "@tcp(" ++ host ++ ")/" ++ c.DB

/-- The method `ConnString`. -/
def DBConfig.ConnString (durationString : Int → String) (c : DBConfig) : String :=
  let usrPwd := c.User
  let usrPwd := if c.Password ≠ "" then usrPwd ++ (":" ++ c.Password) else usrPwd
  let host := ""
  let host := if c.Host ≠ "" then c.Host ++ ":" ++ c.Port else host
  if c.Driver = "mysql" then
    c.mySqlConnString durationString host usrPwd
  else if c.Driver = "redis" then
    host
  else
    let host :=
      if c.Driver = "mongodb" then
        if c.Addrs.length > 0 then
          let addrs := c.Addrs
          let addrs := if host ≠ "" then [host] ++ addrs else addrs
          String.intercalate "," addrs
        else host
      else host
    c.Driver ++ "://" ++ usrPwd ++ "@" ++ host ++ "/" ++ c.DB

/-- The library function `strings.Contains`: `sub` occurs in `s`. -/
def Contains (s sub : String) : Prop := sub.data <:+: s.data

instance (s sub : String) : Decidable (Contains s sub) := by
  unfold Contains; infer_instance

/-- The default ports in the words of the documentation of `init`. -/
def defaultPort (driver : String) : String :=
  if driver = "mysql" then "3306"
  else if driver = "postgres" then "5432"
  else if driver = "mongodb" then "27017"
  else if driver = "redis" then "6379"
  else ""

/-- A rendering of durations in whole seconds, for the sample configurations. -/
def secondsString (d : Int) : String := toString (d / 1000000000) ++ "s"

/-- A table that holds a driver without a default port. -/
def portlessDrivers : GoMap DBConfig := [("sqlite", DBConfig.zero)]

/-- A configuration that gives a single address in `Addrs` and neither host nor port. -/
def addrsOnlyConfig (driver : String) : DBConfig :=
  { DBConfig.zero with Driver := driver, Addrs := ["db2:3307"], User := "app", DB := "orders" }

/-- A configuration that gives host, port and one more address. -/
def sampleConfig (driver : String) : DBConfig :=
  { DBConfig.zero with
    Driver := driver, Host := "db1", Port := "3306", Addrs := ["db2:3307"],
    User := "app", DB := "orders" }

/-! ## fdhttp/helper.go -/

/-- A call of a method of a `sync.Locker`. -/
inductive LockerCall where
  | Lock
  | Unlock
  deriving DecidableEq, Repr

/-- An implementation of the interface `sync.Locker` whose state is a `σ`.  A
method call that does not return (it blocks for ever, or it panics) is `none`. -/
structure Locker (σ : Type) where
  Lock : σ → Option σ
  Unlock : σ → Option σ

/-- The state of a program that uses a locker `m`: the state of `m`, the log of
the method calls made on `m` so far, and the rest of the program state. -/
structure LockState (σ α : Type) where
  locker : σ
  calls : List LockerCall
  rest : α
  deriving DecidableEq, Repr

/-- The method call `m.Lock()`. -/
def Locker.callLock {σ α : Type} (m : Locker σ) (w : LockState σ α) :
    Option (LockState σ α) :=
  match m.Lock w.locker with
  | none => none
  | some l => some { w with locker := l, calls := w.calls ++ [LockerCall.Lock] }

/-- The method call `m.Unlock()`. -/
def Locker.callUnlock {σ α : Type} (m : Locker σ) (w : LockState σ α) :
    Option (LockState σ α) :=
  match m.Unlock w.locker with
  | none => none
  | some l => some { w with locker := l, calls := w.calls ++ [LockerCall.Unlock] }

/-- The function `Un`.  A Go `func()` is a transformer of the program state that
may fail to return. -/
def Un {W : Type} (f : W → Option W) (w : W) : Option W :=
  f w

/-- The function `Lock`: it returns the closure `func() { m.Unlock() }` together
with the state after `m.Lock()`. -/
def Lock {σ α : Type} (m : Locker σ) (w : LockState σ α) :
    Option ((LockState σ α → Option (LockState σ α)) × LockState σ α) :=
  match m.callLock w with
  | none => none
  | some w1 => some (fun w2 => m.callUnlock w2, w1)

/-- How the protected block of a function ends. -/
inductive BlockExit where
  | returned
  | returnedError (err : String)
  | panicked (value : String)
  deriving DecidableEq, Repr

/-- A function whose body is `defer Un(Lock(m))` followed by `block`, the use that
the comment of `Un` documents.  Go evaluates the operand `Lock(m)` when the
`defer` statement executes and runs the deferred call of `Un` when the function
ends, by a return or by a panic alike.  The block sees the state it runs in and
changes the part of it that is not the locker. -/
def deferUnLock {σ α : Type} (m : Locker σ) (block : LockState σ α → BlockExit × α)
    (w : LockState σ α) : Option (BlockExit × LockState σ α) :=
  match Lock m w with
  | none => none
  | some (unlock, w1) =>
    let out := block w1
    match Un unlock { w1 with rest := out.2 } with
    | none => none
    | some w2 => some (out.1, w2)

/-- The library type `sync.Mutex`: the state says whether the mutex is held.
`Lock` on a held mutex blocks, `Unlock` on a free mutex is a fatal error. -/
def Mutex : Locker Bool :=
  { Lock := fun held => if held then none else some true
    Unlock := fun held => if held then some false else none }

/-- A protected block that counts its runs and then panics. -/
def panickingBlock (w : LockState Bool Nat) : BlockExit × Nat :=
  (BlockExit.panicked "boom", w.rest + 1)

/-! ## Specification-side definitions and sample values -/

/-- The words of the specification: with an empty filter every registered service
is checked, otherwise only the service whose name equals the filter. -/
def Checked (serviceParam name : String) : Prop :=
  if serviceParam = "" then True else name = serviceParam

instance (serviceParam name : String) : Decidable (Checked serviceParam name) := by
  unfold Checked; infer_instance

/-- The part of a per-service entry that does not depend on the clock. -/
def HealthCheckServiceResponse.core (e : HealthCheckServiceResponse) : Bool × Any × Any :=
  (e.Status, e.Detail, e.Error)

/-- What the per-service entry of a service holds, the elapsed time apart. -/
def entryCore (s : HealthCheckService) : Bool × Any × Any :=
  match s.HealthCheck.2 with
  | none => (true, s.HealthCheck.1, Any.nil)
  | some e =>
    match e.Detail with
    | some d => (false, Any.nil, d)
    | none => (false, Any.nil, Any.str e.Error)

/-- Whether some checked service of the list returns a non-nil error. -/
def anyFailed (serviceParam : String) (l : GoMap HealthCheckService) : Bool :=
  l.any (fun e => decide (Checked serviceParam e.1) && e.2.HealthCheck.2.isSome)

instance (V : Type) (m : GoMap V) : Decidable m.WF := by
  unfold GoMap.WF; infer_instance

/-! ### Sample values -/

/-- A clock that advances by 1.5 ms between two readings. -/
def sampleClock : Nat → Int := fun i => 1500000 * (i : Int)

/-- A service whose check succeeds. -/
def svcUp : HealthCheckService := { HealthCheck := (Any.str "pong", none) }

/-- A service whose check fails with a plain error. -/
def svcDown : HealthCheckService :=
  { HealthCheck := (Any.nil, some { Error := "timeout", Detail := none }) }

/-- A service whose check fails with a `HealthCheckServiceError`. -/
def svcLagging : HealthCheckService :=
  { HealthCheck :=
      (Any.nil, some { Error := "replica lag", Detail := some (Any.other "[7,9]") }) }

/-- A handler with three registered services, two of which fail. -/
def sampleHandler : HealchCheckHandler :=
  (((NewHealthCheckHandler "v1.2.0" "30ac438").Register "db" svcDown).Register
    "cache" svcUp).Register "queue" svcLagging

/-- A handler all of whose services fail. -/
def failingHandler : HealchCheckHandler :=
  ((NewHealthCheckHandler "v1.2.0" "30ac438").Register "db" svcDown).Register
    "queue" svcLagging

/-- The services of `sampleHandler`, registered (and so visited) in another order. -/
def reorderedHandler : HealchCheckHandler :=
  (((NewHealthCheckHandler "v1.2.0" "30ac438").Register "queue" svcLagging).Register
    "db" svcDown).Register "cache" svcUp

/-! ## Lemmas on maps -/

namespace GoMap

variable {V : Type}

theorem get_set (m : GoMap V) (k key : String) (v : V) :
    (m.set k v).get key = if k = key then some v else m.get key := by
  induction m with
  | nil => simp [set, get]
  | cons b m ih =>
    obtain ⟨k0, v0⟩ := b
    by_cases h0 : k0 = k
    · subst h0
      by_cases h1 : k0 = key <;> simp [set, get, h1]
    · by_cases h1 : k = key
      · subst h1
        simp [set, get, h0, ih]
      · simp [set, get, h0, ih, h1]

theorem set_of_not_mem (m : GoMap V) (k : String) (v : V) (hk : k ∉ m.keys) :
    m.set k v = m ++ [(k, v)] := by
  induction m with
  | nil => simp [set]
  | cons b m ih =>
    obtain ⟨k0, v0⟩ := b
    simp only [keys, List.map_cons, List.mem_cons, not_or] at hk
    have h0 : ¬ k0 = k := fun h => hk.1 h.symm
    simp [set, h0, ih hk.2]

theorem keys_set_of_mem (m : GoMap V) (k : String) (v : V) (hk : k ∈ m.keys) :
    (m.set k v).keys = m.keys := by
  induction m with
  | nil => simp [keys] at hk
  | cons b m ih =>
    obtain ⟨k0, v0⟩ := b
    by_cases h0 : k0 = k
    · subst h0
      simp [set, keys]
    · have hk2 : k ∈ keys m := by
        simp only [keys, List.map_cons, List.mem_cons] at hk
        rcases hk with hk | hk
        · exact absurd hk.symm h0
        · exact hk
      have := ih hk2
      simp only [keys] at this
      simp [set, keys, h0, this]

theorem get_eq_none_of_not_mem (m : GoMap V) (k : String) (hk : k ∉ m.keys) :
    m.get k = none := by
  induction m with
  | nil => simp [get]
  | cons b m ih =>
    obtain ⟨k0, v0⟩ := b
    simp only [keys, List.map_cons, List.mem_cons, not_or] at hk
    have h0 : ¬ k0 = k := fun h => hk.1 h.symm
    simp [get, h0, ih hk.2]

theorem get_eq_some_of_mem (m : GoMap V) (hm : m.WF) (k : String) (v : V)
    (hk : (k, v) ∈ m) : m.get k = some v := by
  induction m with
  | nil => simp at hk
  | cons b m ih =>
    obtain ⟨k0, v0⟩ := b
    simp only [WF, keys, List.map_cons, List.nodup_cons] at hm
    rcases List.mem_cons.1 hk with h | h
    · cases h
      simp [get]
    · have hne : ¬ k0 = k := by
        intro h0
        subst h0
        exact hm.1 (List.mem_map_of_mem Prod.fst h)
      simp [get, hne, ih hm.2 h]

theorem mem_of_get_eq_some (m : GoMap V) (k : String) (v : V)
    (hk : m.get k = some v) : (k, v) ∈ m := by
  induction m with
  | nil => simp [get] at hk
  | cons b m ih =>
    obtain ⟨k0, v0⟩ := b
    by_cases h0 : k0 = k
    · subst h0
      simp [get] at hk
      simp [hk]
    · simp [get, h0] at hk
      exact List.mem_cons_of_mem _ (ih hk)

theorem get_perm (m₁ m₂ : GoMap V) (hm : m₁.WF) (hp : m₁.Perm m₂) (k : String) :
    m₁.get k = m₂.get k := by
  have hm2 : m₂.WF := (hp.map Prod.fst).nodup_iff.1 hm
  cases h1 : m₁.get k with
  | some v =>
    exact (get_eq_some_of_mem m₂ hm2 k v (hp.subset (mem_of_get_eq_some m₁ k v h1))).symm
  | none =>
    cases h2 : m₂.get k with
    | none => rfl
    | some v =>
      have := get_eq_some_of_mem m₁ hm k v (hp.symm.subset (mem_of_get_eq_some m₂ k v h2))
      rw [h1] at this
      cases this

theorem WF_set (m : GoMap V) (hm : m.WF) (k : String) (v : V) : (m.set k v).WF := by
  by_cases hk : k ∈ m.keys
  · unfold WF
    rw [keys_set_of_mem m k v hk]
    exact hm
  · unfold WF
    rw [set_of_not_mem m k v hk]
    simp only [keys, List.map_append, List.map_cons, List.map_nil]
    refine List.Nodup.append hm (by simp) ?_
    simpa [keys] using hk

end GoMap

/-! ## Lemmas on the loop of `Get` -/

theorem entryCore_of_nil (s : HealthCheckService) (h : s.HealthCheck.2 = none) :
    entryCore s = (true, s.HealthCheck.1, Any.nil) := by
  unfold entryCore
  rw [h]

theorem entryCore_of_plain (s : HealthCheckService) (err : GoError)
    (h : s.HealthCheck.2 = some err) (hd : err.Detail = none) :
    entryCore s = (false, Any.nil, Any.str err.Error) := by
  unfold entryCore
  rw [h]
  simp only [hd]

theorem entryCore_of_detail (s : HealthCheckService) (err : GoError) (d : Any)
    (h : s.HealthCheck.2 = some err) (hd : err.Detail = some d) :
    entryCore s = (false, Any.nil, d) := by
  unfold entryCore
  rw [h]
  simp only [hd]

theorem entryCore_fst (s : HealthCheckService) :
    (entryCore s).1 = true ↔ s.HealthCheck.2 = none := by
  cases h : s.HealthCheck.2 with
  | none => simp [entryCore_of_nil s h]
  | some err =>
    cases hd : err.Detail with
    | none => simp [entryCore_of_plain s err h hd]
    | some d => simp [entryCore_of_detail s err d h hd]

theorem checked_iff (serviceParam name : String) :
    Checked serviceParam name ↔ ¬ (serviceParam ≠ "" ∧ name ≠ serviceParam) := by
  unfold Checked
  by_cases h : serviceParam = "" <;> simp [h]

theorem body_skip (now : Nat → Int) (sp : String) (st : GetLoop)
    (e : String × HealthCheckService) (h : ¬ Checked sp e.1) :
    HealchCheckHandler.Get.body now sp st e = st := by
  rw [checked_iff, not_not] at h
  simp only [HealchCheckHandler.Get.body]
  rw [if_pos h]

theorem body_statusCode (now : Nat → Int) (sp : String) (st : GetLoop)
    (e : String × HealthCheckService) (h : Checked sp e.1) :
    (HealchCheckHandler.Get.body now sp st e).statusCode =
      if e.2.HealthCheck.2.isSome then 503 else st.statusCode := by
  rw [checked_iff] at h
  simp only [HealchCheckHandler.Get.body]
  rw [if_neg h]
  rfl

theorem body_status (now : Nat → Int) (sp : String) (st : GetLoop)
    (e : String × HealthCheckService) (h : Checked sp e.1) :
    (HealchCheckHandler.Get.body now sp st e).resp.Status =
      if e.2.HealthCheck.2.isSome then false else st.resp.Status := by
  rw [checked_iff] at h
  simp only [HealchCheckHandler.Get.body]
  rw [if_neg h]

theorem body_version (now : Nat → Int) (sp : String) (st : GetLoop)
    (e : String × HealthCheckService) :
    (HealchCheckHandler.Get.body now sp st e).resp.Version = st.resp.Version := by
  simp only [HealchCheckHandler.Get.body]
  split <;> rfl

theorem body_checks (now : Nat → Int) (sp : String) (st : GetLoop)
    (e : String × HealthCheckService) (h : Checked sp e.1) :
    ∃ c : HealthCheckServiceResponse, c.core = entryCore e.2 ∧
      (HealchCheckHandler.Get.body now sp st e).resp.Checks = st.resp.Checks.set e.1 c := by
  rw [checked_iff] at h
  simp only [HealchCheckHandler.Get.body]
  rw [if_neg h]
  refine ⟨_, ?_, rfl⟩
  unfold entryCore HealthCheckServiceResponse.core
  cases e.2.HealthCheck.2 with
  | none => rfl
  | some err =>
    cases hd : err.Detail with
    | none => simp [hd]
    | some d => simp [hd]

theorem anyFailed_cons_skip (sp : String) (e : String × HealthCheckService)
    (l : GoMap HealthCheckService) (hc : ¬ Checked sp e.1) :
    anyFailed sp (e :: l) = anyFailed sp l := by
  have hd : decide (Checked sp e.1) = false := decide_eq_false hc
  simp [anyFailed, List.any_cons, hd]

theorem anyFailed_cons_ok (sp : String) (e : String × HealthCheckService)
    (l : GoMap HealthCheckService) (hf : e.2.HealthCheck.2.isSome = false) :
    anyFailed sp (e :: l) = anyFailed sp l := by
  simp [anyFailed, List.any_cons, hf]

theorem anyFailed_cons_fail (sp : String) (e : String × HealthCheckService)
    (l : GoMap HealthCheckService) (hc : Checked sp e.1)
    (hf : e.2.HealthCheck.2.isSome = true) :
    anyFailed sp (e :: l) = true := by
  have hd : decide (Checked sp e.1) = true := decide_eq_true hc
  simp [anyFailed, List.any_cons, hd, hf]

theorem loop_statusCode (now : Nat → Int) (sp : String) (l : GoMap HealthCheckService)
    (st : GetLoop) :
    (l.foldl (HealchCheckHandler.Get.body now sp) st).statusCode =
      if anyFailed sp l then 503 else st.statusCode := by
  induction l generalizing st with
  | nil => simp [anyFailed]
  | cons e l ih =>
    rw [List.foldl_cons, ih]
    by_cases hc : Checked sp e.1
    · rw [body_statusCode now sp st e hc]
      cases hf : e.2.HealthCheck.2.isSome
      · rw [anyFailed_cons_ok sp e l hf]
        simp
      · rw [anyFailed_cons_fail sp e l hc hf]
        simp
    · rw [body_skip now sp st e hc]
      rw [anyFailed_cons_skip sp e l hc]

theorem loop_status (now : Nat → Int) (sp : String) (l : GoMap HealthCheckService)
    (st : GetLoop) :
    (l.foldl (HealchCheckHandler.Get.body now sp) st).resp.Status =
      if anyFailed sp l then false else st.resp.Status := by
  induction l generalizing st with
  | nil => simp [anyFailed]
  | cons e l ih =>
    rw [List.foldl_cons, ih]
    by_cases hc : Checked sp e.1
    · rw [body_status now sp st e hc]
      cases hf : e.2.HealthCheck.2.isSome
      · rw [anyFailed_cons_ok sp e l hf]
        simp
      · rw [anyFailed_cons_fail sp e l hc hf]
        simp
    · rw [body_skip now sp st e hc]
      rw [anyFailed_cons_skip sp e l hc]

theorem loop_version (now : Nat → Int) (sp : String) (l : GoMap HealthCheckService)
    (st : GetLoop) :
    (l.foldl (HealchCheckHandler.Get.body now sp) st).resp.Version = st.resp.Version := by
  induction l generalizing st with
  | nil => rfl
  | cons e l ih => rw [List.foldl_cons, ih, body_version]

theorem anyFailed_iff (sp : String) (l : GoMap HealthCheckService) :
    anyFailed sp l = true ↔
      ∃ e ∈ l, Checked sp e.1 ∧ e.2.HealthCheck.2 ≠ none := by
  unfold anyFailed
  simp only [List.any_eq_true, Bool.and_eq_true, decide_eq_true_eq]
  constructor
  · rintro ⟨e, he, hc, hf⟩
    refine ⟨e, he, hc, ?_⟩
    intro hn
    rw [hn] at hf
    cases hf
  · rintro ⟨e, he, hc, hf⟩
    refine ⟨e, he, hc, ?_⟩
    cases h : e.2.HealthCheck.2 with
    | none => exact absurd h hf
    | some _ => rfl

theorem loop_skip_all (now : Nat → Int) (sp : String) (l : GoMap HealthCheckService)
    (st : GetLoop) (h : ∀ e ∈ l, ¬ Checked sp e.1) :
    l.foldl (HealchCheckHandler.Get.body now sp) st = st := by
  induction l generalizing st with
  | nil => rfl
  | cons e l ih =>
    rw [List.foldl_cons, body_skip now sp st e (h e (List.mem_cons_self _ _))]
    exact ih st (fun x hx => h x (List.mem_cons_of_mem _ hx))

theorem loop_checks_get_of_not_mem (now : Nat → Int) (sp : String)
    (l : GoMap HealthCheckService) (st : GetLoop) (name : String) (h : name ∉ l.keys) :
    (l.foldl (HealchCheckHandler.Get.body now sp) st).resp.Checks.get name =
      st.resp.Checks.get name := by
  induction l generalizing st with
  | nil => rfl
  | cons e l ih =>
    simp only [GoMap.keys, List.map_cons, List.mem_cons, not_or] at h
    rw [List.foldl_cons, ih _ h.2]
    by_cases hc : Checked sp e.1
    · obtain ⟨c, -, hset⟩ := body_checks now sp st e hc
      rw [hset, GoMap.get_set, if_neg (fun hk => h.1 hk.symm)]
    · rw [body_skip now sp st e hc]

theorem loop_checks_get_of_not_checked (now : Nat → Int) (sp : String)
    (l : GoMap HealthCheckService) (st : GetLoop) (name : String) (h : ¬ Checked sp name) :
    (l.foldl (HealchCheckHandler.Get.body now sp) st).resp.Checks.get name =
      st.resp.Checks.get name := by
  induction l generalizing st with
  | nil => rfl
  | cons e l ih =>
    rw [List.foldl_cons, ih]
    by_cases hc : Checked sp e.1
    · obtain ⟨c, -, hset⟩ := body_checks now sp st e hc
      have hne : ¬ e.1 = name := by
        intro hk
        rw [hk] at hc
        exact h hc
      rw [hset, GoMap.get_set, if_neg hne]
    · rw [body_skip now sp st e hc]

theorem loop_checks_get_of_mem (now : Nat → Int) (sp : String)
    (l : GoMap HealthCheckService) (hl : l.WF) (st : GetLoop) (name : String)
    (s : HealthCheckService) (hm : (name, s) ∈ l) (hc : Checked sp name) :
    ∃ c : HealthCheckServiceResponse, c.core = entryCore s ∧
      (l.foldl (HealchCheckHandler.Get.body now sp) st).resp.Checks.get name = some c := by
  induction l generalizing st with
  | nil => simp at hm
  | cons e l ih =>
    simp only [GoMap.WF, GoMap.keys, List.map_cons, List.nodup_cons] at hl
    rw [List.foldl_cons]
    rcases List.mem_cons.1 hm with h | h
    · subst h
      obtain ⟨c, hcore, hset⟩ := body_checks now sp st (name, s) hc
      refine ⟨c, hcore, ?_⟩
      rw [loop_checks_get_of_not_mem now sp l _ name hl.1, hset, GoMap.get_set]
      simp
    · exact ih hl.2 _ h

theorem loop_checks_keys (now : Nat → Int) (sp : String)
    (l : GoMap HealthCheckService) (hl : l.WF) (st : GetLoop)
    (hd : ∀ k ∈ l.keys, k ∉ st.resp.Checks.keys) :
    (l.foldl (HealchCheckHandler.Get.body now sp) st).resp.Checks.keys =
      st.resp.Checks.keys ++ (l.keys.filter (fun k => decide (Checked sp k))) := by
  induction l generalizing st with
  | nil => simp [GoMap.keys]
  | cons e l ih =>
    simp only [GoMap.WF, GoMap.keys, List.map_cons, List.nodup_cons] at hl
    have he : e.1 ∉ st.resp.Checks.keys := hd e.1 (by simp [GoMap.keys])
    have hrest : ∀ k ∈ GoMap.keys l, k ∉ st.resp.Checks.keys := fun k hk =>
      hd k (by simp only [GoMap.keys, List.map_cons, List.mem_cons]; exact Or.inr hk)
    rw [List.foldl_cons]
    by_cases hc : Checked sp e.1
    · obtain ⟨c, -, hset⟩ := body_checks now sp st e hc
      have hkeys : (HealchCheckHandler.Get.body now sp st e).resp.Checks.keys =
          st.resp.Checks.keys ++ [e.1] := by
        rw [hset, GoMap.set_of_not_mem _ _ _ he]
        simp [GoMap.keys]
      rw [ih hl.2, hkeys]
      · have hdc : decide (Checked sp e.1) = true := decide_eq_true hc
        have hf : List.filter (fun k => decide (Checked sp k)) (e.1 :: List.map Prod.fst l) =
            e.1 :: List.filter (fun k => decide (Checked sp k)) (List.map Prod.fst l) :=
          List.filter_cons_of_pos hdc
        simp only [GoMap.keys, List.map_cons]
        rw [hf]
        simp
      · intro k hk
        rw [hkeys, List.mem_append, not_or]
        refine ⟨hrest k hk, ?_⟩
        simp only [List.mem_singleton]
        intro hke
        subst hke
        exact hl.1 hk
    · rw [body_skip now sp st e hc, ih hl.2 st hrest]
      have hdc : ¬ (decide (Checked sp e.1) = true) := by simpa using hc
      have hf : List.filter (fun k => decide (Checked sp k)) (e.1 :: List.map Prod.fst l) =
          List.filter (fun k => decide (Checked sp k)) (List.map Prod.fst l) :=
        List.filter_cons_of_neg hdc
      simp only [GoMap.keys, List.map_cons]
      rw [hf]

theorem filter_eq_singleton (l : List String) (hl : l.Nodup) (k : String) (hk : k ∈ l) :
    l.filter (fun x => decide (x = k)) = [k] := by
  induction l with
  | nil => simp at hk
  | cons a l ih =>
    rw [List.nodup_cons] at hl
    by_cases ha : a = k
    · subst ha
      rw [List.filter_cons_of_pos (by simp)]
      have : l.filter (fun x => decide (x = a)) = [] := by
        rw [List.filter_eq_nil_iff]
        intro x hx
        simp only [decide_eq_true_eq]
        intro hxa
        subst hxa
        exact hl.1 hx
      rw [this]
    · rw [List.filter_cons_of_neg (by simpa using ha)]
      rcases List.mem_cons.1 hk with h | h
      · exact absurd h.symm ha
      · exact ih hl.2 h

theorem anyFailed_perm (sp : String) (l₁ l₂ : GoMap HealthCheckService) (hp : l₁.Perm l₂) :
    anyFailed sp l₁ = anyFailed sp l₂ := by
  rw [Bool.eq_iff_iff, anyFailed_iff, anyFailed_iff]
  constructor
  · rintro ⟨e, he, hc⟩
    exact ⟨e, hp.subset he, hc⟩
  · rintro ⟨e, he, hc⟩
    exact ⟨e, hp.symm.subset he, hc⟩

theorem GoMap.len_set {V : Type} (m : GoMap V) (k : String) (v : V) :
    (m.set k v).len = if k ∈ m.keys then m.len else m.len + 1 := by
  induction m with
  | nil => simp [GoMap.set, GoMap.len, GoMap.keys]
  | cons b m ih =>
    obtain ⟨k0, v0⟩ := b
    by_cases h0 : k0 = k
    · subst h0
      simp [GoMap.set, GoMap.len, GoMap.keys]
    · have h1 : ¬ k = k0 := fun h => h0 h.symm
      simp only [GoMap.len, GoMap.keys] at ih
      by_cases hk : k ∈ List.map Prod.fst m
      · simp [GoMap.set, GoMap.len, GoMap.keys, h0, h1, hk, ih]
      · simp [GoMap.set, GoMap.len, GoMap.keys, h0, h1, hk, ih]

theorem Get_fst (h : HealchCheckHandler) (now : Nat → Int) (sp : String) :
    (h.Get now sp).1 = if anyFailed sp h.services then 503 else 200 := by
  simp only [HealchCheckHandler.Get]
  rw [loop_statusCode]
  rfl

theorem Get_status (h : HealchCheckHandler) (now : Nat → Int) (sp : String) :
    (h.Get now sp).2.1.Status = if anyFailed sp h.services then false else true := by
  simp only [HealchCheckHandler.Get]
  rw [loop_status]

theorem Get_version (h : HealchCheckHandler) (now : Nat → Int) (sp : String) :
    (h.Get now sp).2.1.Version = { Tag := h.tag, Commit := h.commit } := by
  simp only [HealchCheckHandler.Get]
  rw [loop_version]

theorem Get_checks (h : HealchCheckHandler) (now : Nat → Int) (sp : String) :
    (h.Get now sp).2.1.Checks =
      (h.services.foldl (HealchCheckHandler.Get.body now sp)
        { statusCode := StatusOK
          resp :=
            { Status := true
              Version := { Tag := h.tag, Commit := h.commit }
              Elapsed := 0
              Checks := [] }
          tick := 1 }).resp.Checks := rfl

/-! ## The health-check aggregate -/

/-- C1: for every registry and every service filter, `Get` returns aggregate
`Status = false` exactly when some checked service returned a non-nil error, HTTP
status 503 exactly in that case and 200 exactly otherwise, where a service is
checked when the filter is empty or equals its name. -/
theorem Get_aggregate_iff_checked_failure (h : HealchCheckHandler) (now : Nat → Int)
    (serviceParam : String) :
    ((h.Get now serviceParam).2.1.Status = false ↔
        ∃ e ∈ h.services, Checked serviceParam e.1 ∧ e.2.HealthCheck.2 ≠ none) ∧
    ((h.Get now serviceParam).1 = 503 ↔
        ∃ e ∈ h.services, Checked serviceParam e.1 ∧ e.2.HealthCheck.2 ≠ none) ∧
    ((h.Get now serviceParam).1 = 200 ↔
        ¬ ∃ e ∈ h.services, Checked serviceParam e.1 ∧ e.2.HealthCheck.2 ≠ none) := by
  rw [Get_fst, Get_status, ← anyFailed_iff]
  cases anyFailed serviceParam h.services <;> simp

/-- C2: with an empty filter the keys of `Checks` are exactly the registered
names, whether or not services fail; with a filter (a non-empty service parameter)
equal to a registered name, `Checks` has exactly that one key; and in both cases
the entry of a checked service has `Status = true` exactly when that service's own
check returned no error. -/
theorem Get_checks_keys (h : HealchCheckHandler) (now : Nat → Int) (serviceParam : String)
    (hwf : h.services.WF) :
    (serviceParam = "" →
      (h.Get now serviceParam).2.1.Checks.keys = h.services.keys ∧
      (h.Get now serviceParam).2.1.Checks.len = h.services.len) ∧
    (serviceParam ≠ "" → serviceParam ∈ h.services.keys →
      (h.Get now serviceParam).2.1.Checks.keys = [serviceParam]) ∧
    (∀ name s, (name, s) ∈ h.services → Checked serviceParam name →
      ∃ c, (h.Get now serviceParam).2.1.Checks.get name = some c ∧
        (c.Status = true ↔ s.HealthCheck.2 = none)) := by
  have hkeys := loop_checks_keys now serviceParam h.services hwf
    { statusCode := StatusOK
      resp :=
        { Status := true
          Version := { Tag := h.tag, Commit := h.commit }
          Elapsed := 0
          Checks := [] }
      tick := 1 } (by simp [GoMap.keys])
  rw [← Get_checks] at hkeys
  simp only [GoMap.keys, List.map_nil, List.nil_append] at hkeys
  refine ⟨?_, ?_, ?_⟩
  · intro hsp
    have hall : (List.map Prod.fst h.services).filter
        (fun k => decide (Checked serviceParam k)) = List.map Prod.fst h.services := by
      rw [List.filter_eq_self]
      intro k _
      simp [Checked, hsp]
    have hk : (h.Get now serviceParam).2.1.Checks.keys = h.services.keys := by
      simp only [GoMap.keys]
      rw [hkeys, hall]
    refine ⟨hk, ?_⟩
    have := congrArg List.length hk
    simpa [GoMap.keys, GoMap.len] using this
  · intro hsp hmem
    have hfun : (fun k => decide (Checked serviceParam k)) =
        (fun k => decide (k = serviceParam)) := by
      funext k
      simp [Checked, hsp]
    simp only [GoMap.keys]
    rw [hkeys, hfun]
    exact filter_eq_singleton _ hwf serviceParam hmem
  · intro name s hm hc
    obtain ⟨c, hcore, hget⟩ := loop_checks_get_of_mem now serviceParam h.services hwf
      { statusCode := StatusOK
        resp :=
          { Status := true
            Version := { Tag := h.tag, Commit := h.commit }
            Elapsed := 0
            Checks := [] }
        tick := 1 } name s hm hc
    rw [← Get_checks] at hget
    refine ⟨c, hget, ?_⟩
    have h1 : c.Status = (entryCore s).1 := congrArg Prod.fst hcore
    rw [h1]
    exact entryCore_fst s

/-- C2, at a handler with three services of which two fail: every name is a key
under the empty filter, and only `cache` under the filter `cache`. -/
theorem Get_checks_keys_witness :
    (sampleHandler.Get sampleClock "").2.1.Checks.keys = sampleHandler.services.keys ∧
    (sampleHandler.Get sampleClock "cache").2.1.Checks.keys = ["cache"] :=
  ⟨((Get_checks_keys sampleHandler sampleClock "" (by decide)).1 rfl).1,
   (Get_checks_keys sampleHandler sampleClock "cache" (by decide)).2.1 (by decide)
     (by decide)⟩

/-- C3: the entry of every checked service is determined by what its `HealthCheck`
returned: on a nil error `Status = true`, `Detail` is the returned detail and
`Error` is nil; on a non-nil error `Status = false`, `Detail` is nil and `Error` is
the payload of `Detail()` when the error implements `HealthCheckServiceError` and
the string `err.Error()` otherwise. -/
theorem Get_service_entry (h : HealchCheckHandler) (now : Nat → Int) (serviceParam : String)
    (hwf : h.services.WF) (name : String) (s : HealthCheckService)
    (hm : (name, s) ∈ h.services) (hc : Checked serviceParam name) :
    ∃ c, (h.Get now serviceParam).2.1.Checks.get name = some c ∧
      (s.HealthCheck.2 = none →
        c.Status = true ∧ c.Detail = s.HealthCheck.1 ∧ c.Error = Any.nil) ∧
      (∀ err, s.HealthCheck.2 = some err →
        c.Status = false ∧ c.Detail = Any.nil ∧
        (∀ d, err.Detail = some d → c.Error = d) ∧
        (err.Detail = none → c.Error = Any.str err.Error)) := by
  obtain ⟨c, hcore, hget⟩ := loop_checks_get_of_mem now serviceParam h.services hwf
    { statusCode := StatusOK
      resp :=
        { Status := true
          Version := { Tag := h.tag, Commit := h.commit }
          Elapsed := 0
          Checks := [] }
      tick := 1 } name s hm hc
  rw [← Get_checks] at hget
  refine ⟨c, hget, ?_, ?_⟩
  · intro hnil
    rw [entryCore_of_nil s hnil] at hcore
    unfold HealthCheckServiceResponse.core at hcore
    simp only [Prod.mk.injEq] at hcore
    exact hcore
  · intro err herr
    cases hd : err.Detail with
    | none =>
      rw [entryCore_of_plain s err herr hd] at hcore
      unfold HealthCheckServiceResponse.core at hcore
      simp only [Prod.mk.injEq] at hcore
      refine ⟨hcore.1, hcore.2.1, ?_, fun _ => hcore.2.2⟩
      intro d hd2
      cases hd2
    | some d0 =>
      rw [entryCore_of_detail s err d0 herr hd] at hcore
      unfold HealthCheckServiceResponse.core at hcore
      simp only [Prod.mk.injEq] at hcore
      refine ⟨hcore.1, hcore.2.1, ?_, by intro hd2; cases hd2⟩
      intro d hd2
      cases hd2
      exact hcore.2.2

/-- C3, at the service `queue` of the sample handler, whose check fails with an
error that carries a detail payload. -/
theorem Get_service_entry_witness :
    ∃ c, (sampleHandler.Get sampleClock "").2.1.Checks.get "queue" = some c ∧
      (svcLagging.HealthCheck.2 = none →
        c.Status = true ∧ c.Detail = svcLagging.HealthCheck.1 ∧ c.Error = Any.nil) ∧
      (∀ err, svcLagging.HealthCheck.2 = some err →
        c.Status = false ∧ c.Detail = Any.nil ∧
        (∀ d, err.Detail = some d → c.Error = d) ∧
        (err.Detail = none → c.Error = Any.str err.Error)) :=
  Get_service_entry sampleHandler sampleClock "" (by decide) "queue" svcLagging
    (by decide) (by decide)

/-- C4: for a non-empty filter that names no registered service, `Get` produces an
empty `Checks` map, `Status = true`, HTTP status 200 and a nil error, whatever the
registered services would return. -/
theorem Get_unknown_filter (h : HealchCheckHandler) (now : Nat → Int) (serviceParam : String)
    (hne : serviceParam ≠ "") (hnot : serviceParam ∉ h.services.keys) :
    (h.Get now serviceParam).2.1.Checks = [] ∧
    (h.Get now serviceParam).2.1.Status = true ∧
    (h.Get now serviceParam).1 = 200 ∧
    (h.Get now serviceParam).2.2 = none := by
  have hskip : ∀ e ∈ h.services, ¬ Checked serviceParam e.1 := by
    intro e he hc
    unfold Checked at hc
    rw [if_neg hne] at hc
    apply hnot
    rw [← hc]
    exact List.mem_map_of_mem Prod.fst he
  have hloop := loop_skip_all now serviceParam h.services
    { statusCode := StatusOK
      resp :=
        { Status := true
          Version := { Tag := h.tag, Commit := h.commit }
          Elapsed := 0
          Checks := [] }
      tick := 1 } hskip
  have hget : h.Get now serviceParam =
      (StatusOK,
        { Status := true
          Version := { Tag := h.tag, Commit := h.commit }
          Elapsed := Int.tdiv (now 1 - now 0) Millisecond
          Checks := [] },
        none) := by
    simp only [HealchCheckHandler.Get]
    rw [hloop]
  rw [hget]
  exact ⟨rfl, rfl, rfl, rfl⟩

/-- C4, at a handler all of whose services fail and the filter `search`. -/
theorem Get_unknown_filter_witness :
    (∀ e ∈ failingHandler.services, e.2.HealthCheck.2 ≠ none) ∧
    (failingHandler.Get sampleClock "search").2.1.Checks = [] ∧
    (failingHandler.Get sampleClock "search").2.1.Status = true ∧
    (failingHandler.Get sampleClock "search").1 = 200 ∧
    (failingHandler.Get sampleClock "search").2.2 = none :=
  ⟨by decide, Get_unknown_filter failingHandler sampleClock "search" (by decide) (by decide)⟩

/-- C5: the result of `Get` does not depend on the order in which the services are
visited: for two handlers with the same version whose registries hold the same
bindings in different orders (and any two clocks), the HTTP status, the aggregate
`Status`, the version and, for every name, the `Status`, `Detail` and `Error` of
the entry are the same. -/
theorem Get_order_independent (h₁ h₂ : HealchCheckHandler) (now₁ now₂ : Nat → Int)
    (serviceParam : String) (hwf : h₁.services.WF) (htag : h₁.tag = h₂.tag)
    (hcommit : h₁.commit = h₂.commit) (hp : h₁.services.Perm h₂.services) :
    (h₁.Get now₁ serviceParam).1 = (h₂.Get now₂ serviceParam).1 ∧
    (h₁.Get now₁ serviceParam).2.1.Status = (h₂.Get now₂ serviceParam).2.1.Status ∧
    (h₁.Get now₁ serviceParam).2.1.Version = (h₂.Get now₂ serviceParam).2.1.Version ∧
    ∀ name,
      ((h₁.Get now₁ serviceParam).2.1.Checks.get name).map HealthCheckServiceResponse.core =
        ((h₂.Get now₂ serviceParam).2.1.Checks.get name).map
          HealthCheckServiceResponse.core := by
  have hwf2 : h₂.services.WF := (hp.map Prod.fst).nodup_iff.1 hwf
  refine ⟨?_, ?_, ?_, ?_⟩
  · rw [Get_fst, Get_fst, anyFailed_perm serviceParam h₁.services h₂.services hp]
  · rw [Get_status, Get_status, anyFailed_perm serviceParam h₁.services h₂.services hp]
  · rw [Get_version, Get_version, htag, hcommit]
  · intro name
    rw [Get_checks, Get_checks]
    by_cases hc : Checked serviceParam name
    · by_cases hk : name ∈ h₁.services.keys
      · obtain ⟨e, he, hname⟩ := List.mem_map.1 hk
        obtain ⟨n, s⟩ := e
        simp only at hname
        subst hname
        obtain ⟨c₁, hcore₁, hget₁⟩ := loop_checks_get_of_mem now₁ serviceParam h₁.services hwf
          { statusCode := StatusOK
            resp :=
              { Status := true
                Version := { Tag := h₁.tag, Commit := h₁.commit }
                Elapsed := 0
                Checks := [] }
            tick := 1 } n s he hc
        obtain ⟨c₂, hcore₂, hget₂⟩ := loop_checks_get_of_mem now₂ serviceParam h₂.services hwf2
          { statusCode := StatusOK
            resp :=
              { Status := true
                Version := { Tag := h₂.tag, Commit := h₂.commit }
                Elapsed := 0
                Checks := [] }
            tick := 1 } n s (hp.subset he) hc
        rw [hget₁, hget₂]
        simp only [Option.map_some']
        rw [hcore₁, hcore₂]
      · have hk2 : name ∉ h₂.services.keys := fun hmem =>
          hk ((hp.map Prod.fst).symm.subset hmem)
        rw [loop_checks_get_of_not_mem now₁ serviceParam h₁.services _ name hk,
          loop_checks_get_of_not_mem now₂ serviceParam h₂.services _ name hk2]
    · rw [loop_checks_get_of_not_checked now₁ serviceParam h₁.services _ name hc,
        loop_checks_get_of_not_checked now₂ serviceParam h₂.services _ name hc]

/-- C5, at the sample handler and the handler with the same three services in
another order, read with two different clocks. -/
theorem Get_order_independent_witness :
    sampleHandler.services ≠ reorderedHandler.services ∧
    (sampleHandler.Get sampleClock "").1 = (reorderedHandler.Get (fun _ => 0) "").1 ∧
    (sampleHandler.Get sampleClock "").2.1.Status =
      (reorderedHandler.Get (fun _ => 0) "").2.1.Status ∧
    (sampleHandler.Get sampleClock "").2.1.Version =
      (reorderedHandler.Get (fun _ => 0) "").2.1.Version ∧
    ∀ name,
      ((sampleHandler.Get sampleClock "").2.1.Checks.get name).map
          HealthCheckServiceResponse.core =
        ((reorderedHandler.Get (fun _ => 0) "").2.1.Checks.get name).map
          HealthCheckServiceResponse.core :=
  ⟨by decide,
   Get_order_independent sampleHandler reorderedHandler sampleClock (fun _ => 0) ""
    (by decide) rfl rfl (by decide)⟩

/-- C6: `Register` is last-registration-wins on a registry with unique names:
afterwards the name is bound to the new service, every other name is bound as
before, names stay unique, and the number of names grows by one exactly when the
name was not registered before (and is unchanged otherwise); a handler made by
`NewHealthCheckHandler` has an empty registry. -/
theorem Register_last_wins (h : HealchCheckHandler) (name : String) (s : HealthCheckService)
    (hwf : h.services.WF) :
    (h.Register name s).services.get name = some s ∧
    (∀ other, other ≠ name →
      (h.Register name s).services.get other = h.services.get other) ∧
    (h.Register name s).services.WF ∧
    (name ∉ h.services.keys ↔
      (h.Register name s).services.len = h.services.len + 1) ∧
    (name ∈ h.services.keys ↔ (h.Register name s).services.len = h.services.len) ∧
    (∀ tag commit, (NewHealthCheckHandler tag commit).services = []) := by
  refine ⟨?_, ?_, ?_, ?_, ?_, ?_⟩
  · simp [HealchCheckHandler.Register, GoMap.get_set]
  · intro other hne
    simp only [HealchCheckHandler.Register]
    rw [GoMap.get_set, if_neg (fun hk => hne hk.symm)]
  · exact GoMap.WF_set h.services hwf name s
  · simp only [HealchCheckHandler.Register]
    rw [GoMap.len_set]
    by_cases hk : name ∈ h.services.keys <;> simp [hk]
  · simp only [HealchCheckHandler.Register]
    rw [GoMap.len_set]
    by_cases hk : name ∈ h.services.keys <;> simp [hk]
  · intro tag commit
    rfl

/-- C6, at the sample handler: registering `db` again replaces its service and
leaves three names. -/
theorem Register_last_wins_witness :
    (sampleHandler.Register "db" svcUp).services.get "db" = some svcUp ∧
    (∀ other, other ≠ "db" →
      (sampleHandler.Register "db" svcUp).services.get other =
        sampleHandler.services.get other) ∧
    (sampleHandler.Register "db" svcUp).services.WF ∧
    ("db" ∉ sampleHandler.services.keys ↔
      (sampleHandler.Register "db" svcUp).services.len = sampleHandler.services.len + 1) ∧
    ("db" ∈ sampleHandler.services.keys ↔
      (sampleHandler.Register "db" svcUp).services.len = sampleHandler.services.len) ∧
    (∀ tag commit, (NewHealthCheckHandler tag commit).services = []) :=
  Register_last_wins sampleHandler "db" svcUp (by decide)

/-! ## Lemmas on `init` -/

theorem GoMap.get_of_mem_keys {V : Type} (m : GoMap V) (k : String) (hk : k ∈ m.keys) :
    ∃ v, m.get k = some v := by
  cases h : m.get k with
  | some v => exact ⟨v, rfl⟩
  | none =>
    exfalso
    induction m with
    | nil => simp [GoMap.keys] at hk
    | cons b m ih =>
      obtain ⟨k0, v0⟩ := b
      by_cases h0 : k0 = k
      · simp [GoMap.get, h0] at h
      · simp only [GoMap.get, if_neg h0] at h
        simp only [GoMap.keys, List.map_cons, List.mem_cons] at hk
        rcases hk with hk | hk
        · exact h0 hk.symm
        · exact ih hk h

theorem fillHost_Port (d c : DBConfig) : (DBConfig.init.fillHost d c).Port = c.Port := by
  unfold DBConfig.init.fillHost
  split
  · split <;> rfl
  · rfl

theorem fillPort_error (d x : DBConfig) (e : PanicValue)
    (h : DBConfig.init.fillPort d x = Except.error e) :
    e = PanicValue.ErrInvalidPort ∧ x.Port = "" ∧ d.Port = "" := by
  unfold DBConfig.init.fillPort at h
  by_cases h1 : x.Host ≠ "" ∧ x.Port = ""
  · rw [if_pos h1] at h
    by_cases h2 : d.Port ≠ ""
    · rw [if_pos h2] at h
      cases h
    · rw [if_neg h2] at h
      cases h
      exact ⟨rfl, h1.2, not_not.1 h2⟩
  · rw [if_neg h1] at h
    cases h

theorem init_of_get (c : DBConfig) (drivers : GoMap DBConfig) (d : DBConfig)
    (hD : c.Driver ≠ "") (hg : drivers.get c.Driver = some d) :
    c.init drivers =
      match DBConfig.init.fillPort d (DBConfig.init.fillHost d c) with
      | Except.error e => Except.error e
      | Except.ok c => Except.ok (DBConfig.init.fillUser d c) := by
  unfold DBConfig.init
  rw [if_neg hD, hg]

theorem init_of_get_none (c : DBConfig) (drivers : GoMap DBConfig)
    (hD : c.Driver ≠ "") (hg : drivers.get c.Driver = none) :
    c.init drivers = Except.error PanicValue.ErrUnknownDriver := by
  unfold DBConfig.init
  rw [if_neg hD, hg]

theorem init_of_default (c : DBConfig) (drivers : GoMap DBConfig) (d : DBConfig)
    (hD : c.Driver ≠ "") (hg : drivers.get c.Driver = some d)
    (hhost : d.Host = "") (huser : d.User = "") (hport : d.Port ≠ "") :
    ∃ c', c.init drivers = Except.ok c' ∧
      c'.Host = (if c.Host = "" ∧ c.Addrs = [] then "127.0.0.1" else c.Host) ∧
      c'.Port = (if c'.Host ≠ "" ∧ c.Port = "" then d.Port else c.Port) ∧
      c'.User = (if c.User = "" then "root" else c.User) ∧
      c'.Driver = c.Driver ∧ c'.Addrs = c.Addrs ∧ c'.Password = c.Password ∧
      c'.DB = c.DB ∧ c'.MysqlOptions = c.MysqlOptions ∧
      c'.initialized = c.initialized := by
  rw [init_of_get c drivers d hD hg]
  unfold DBConfig.init.fillPort DBConfig.init.fillHost DBConfig.init.fillUser
  by_cases h1 : c.Host = "" <;> by_cases h2 : c.Addrs = [] <;>
    by_cases h3 : c.Port = "" <;> by_cases h4 : c.User = "" <;>
    simp [h1, h2, h3, h4, hhost, huser, hport]

/-! ## The database configuration -/

/-- C7: `init` panics with `ErrNoDriverSpecified` exactly when `Driver` is empty,
with `ErrUnknownDriver` exactly when `Driver` is non-empty and not a key of the
driver table, with `ErrInvalidPort` only when no `Port` was given and the driver
has no default port, and returns a configuration for every other input. -/
theorem init_panics (c : DBConfig) (drivers : GoMap DBConfig) :
    (c.init drivers = Except.error PanicValue.ErrNoDriverSpecified ↔ c.Driver = "") ∧
    (c.init drivers = Except.error PanicValue.ErrUnknownDriver ↔
      c.Driver ≠ "" ∧ c.Driver ∉ drivers.keys) ∧
    (c.init drivers = Except.error PanicValue.ErrInvalidPort →
      c.Port = "" ∧ ∃ d, drivers.get c.Driver = some d ∧ d.Port = "") ∧
    (c.Driver ≠ "" ∧ c.Driver ∈ drivers.keys ∧
        ¬ (c.Port = "" ∧ ∃ d, drivers.get c.Driver = some d ∧ d.Port = "") →
      ∃ c', c.init drivers = Except.ok c') := by
  by_cases hD : c.Driver = ""
  · have hinit : c.init drivers = Except.error PanicValue.ErrNoDriverSpecified := by
      unfold DBConfig.init
      rw [if_pos hD]
    rw [hinit]
    refine ⟨by simp [hD], by simp [hD], by simp, ?_⟩
    intro h
    exact absurd hD h.1
  · cases hg : drivers.get c.Driver with
    | none =>
      have hinit : c.init drivers = Except.error PanicValue.ErrUnknownDriver :=
        init_of_get_none c drivers hD hg
      have hk : c.Driver ∉ drivers.keys := by
        intro hk
        obtain ⟨v, hv⟩ := GoMap.get_of_mem_keys drivers c.Driver hk
        rw [hg] at hv
        cases hv
      rw [hinit]
      refine ⟨by simp [hD], by simp [hD, hk], by simp, ?_⟩
      intro h
      exact absurd h.2.1 hk
    | some d =>
      have hk : c.Driver ∈ drivers.keys := by
        by_contra hk
        rw [GoMap.get_eq_none_of_not_mem drivers c.Driver hk] at hg
        cases hg
      rw [init_of_get c drivers d hD hg]
      cases hp : DBConfig.init.fillPort d (DBConfig.init.fillHost d c) with
      | error e =>
        obtain ⟨he, hport, hdport⟩ := fillPort_error d _ e hp
        rw [fillHost_Port] at hport
        subst he
        refine ⟨by simp [hD], by simp [hk], ?_, ?_⟩
        · intro _
          exact ⟨hport, d, rfl, hdport⟩
        · intro h
          exact absurd ⟨hport, d, rfl, hdport⟩ h.2.2
      | ok c2 =>
        refine ⟨by simp [hD], by simp [hk], by simp, ?_⟩
        intro _
        exact ⟨_, rfl⟩

/-- C7, at four inputs: no driver, an unknown driver, a driver of a table without
default port, and a plain mysql configuration. -/
theorem init_panics_witness :
    DBConfig.zero.init availableDrivers = Except.error PanicValue.ErrNoDriverSpecified ∧
    ({ DBConfig.zero with Driver := "oracle" }).init availableDrivers =
      Except.error PanicValue.ErrUnknownDriver ∧
    ({ DBConfig.zero with Driver := "sqlite" }).init portlessDrivers =
      Except.error PanicValue.ErrInvalidPort ∧
    ∃ c', ({ DBConfig.zero with Driver := "mysql" }).init availableDrivers = Except.ok c' :=
  ⟨(init_panics DBConfig.zero availableDrivers).1.2 rfl,
   (init_panics { DBConfig.zero with Driver := "oracle" } availableDrivers).2.1.2
     (by decide),
   rfl,
   (init_panics { DBConfig.zero with Driver := "mysql" } availableDrivers).2.2.2
     (by decide)⟩

/-- C8: the driver `dynamodb`, which the documentation of `DBConfig.Driver` lists,
is not a key of `availableDrivers`, and `init` panics with `ErrUnknownDriver` on
every configuration that names it. -/
theorem init_dynamodb_unknown (c : DBConfig) :
    "dynamodb" ∉ availableDrivers.keys ∧
    ({ c with Driver := "dynamodb" }).init availableDrivers =
      Except.error PanicValue.ErrUnknownDriver :=
  ⟨by decide,
   init_of_get_none { c with Driver := "dynamodb" } availableDrivers
     (show "dynamodb" ≠ "" by decide)
     (show availableDrivers.get "dynamodb" = none by decide)⟩

/-- C9: for a configuration whose driver is a key of `availableDrivers`, `init`
returns a configuration in which `Host` is `127.0.0.1` when `Host` and `Addrs` were
both empty, `Port` is the driver's default when the resulting `Host` is non-empty
and `Port` was empty, `User` is `root` when it was empty, and every other field,
as well as a `Host`, `Port` or `User` that was given, is unchanged. -/
theorem init_fills_defaults (c : DBConfig) (hd : c.Driver ∈ availableDrivers.keys) :
    ∃ c', c.init availableDrivers = Except.ok c' ∧
      c'.Host = (if c.Host = "" ∧ c.Addrs = [] then "127.0.0.1" else c.Host) ∧
      c'.Port = (if c'.Host ≠ "" ∧ c.Port = "" then defaultPort c.Driver else c.Port) ∧
      c'.User = (if c.User = "" then "root" else c.User) ∧
      c'.Driver = c.Driver ∧ c'.Addrs = c.Addrs ∧ c'.Password = c.Password ∧
      c'.DB = c.DB ∧ c'.MysqlOptions = c.MysqlOptions ∧
      c'.initialized = c.initialized := by
  have hcases : c.Driver = "mysql" ∨ c.Driver = "postgres" ∨ c.Driver = "mongodb" ∨
      c.Driver = "redis" := by
    simpa [availableDrivers, GoMap.keys] using hd
  rcases hcases with h | h | h | h
  · have := init_of_default c availableDrivers { DBConfig.zero with Port := "3306" }
      (by rw [h]; decide) (by rw [h]; rfl) rfl rfl (by decide)
    rw [h, defaultPort]
    rw [h] at this
    exact this
  · have := init_of_default c availableDrivers { DBConfig.zero with Port := "5432" }
      (by rw [h]; decide) (by rw [h]; rfl) rfl rfl (by decide)
    rw [h, defaultPort]
    rw [h] at this
    exact this
  · have := init_of_default c availableDrivers { DBConfig.zero with Port := "27017" }
      (by rw [h]; decide) (by rw [h]; rfl) rfl rfl (by decide)
    rw [h, defaultPort]
    rw [h] at this
    exact this
  · have := init_of_default c availableDrivers { DBConfig.zero with Port := "6379" }
      (by rw [h]; decide) (by rw [h]; rfl) rfl rfl (by decide)
    rw [h, defaultPort]
    rw [h] at this
    exact this

/-- C9, at a postgres configuration that gives only a password: host, port and user
are filled in and the password is kept. -/
theorem init_fills_defaults_witness :
    ∃ c', ({ DBConfig.zero with Driver := "postgres", Password := "s3cret" }).init
        availableDrivers = Except.ok c' ∧
      c'.Host = "127.0.0.1" ∧ c'.Port = "5432" ∧ c'.User = "root" ∧
      c'.Driver = "postgres" ∧ c'.Password = "s3cret" := by
  obtain ⟨c', hinit, hHost, hPort, hUser, hDriver, -, hPassword, -⟩ :=
    init_fills_defaults { DBConfig.zero with Driver := "postgres", Password := "s3cret" }
      (by decide)
  have hHost2 : c'.Host = "127.0.0.1" := by
    rw [hHost]
    rfl
  refine ⟨c', hinit, hHost2, ?_, ?_, hDriver, hPassword⟩
  · rw [hPort, hHost2]
    rfl
  · rw [hUser]
    rfl

/-- C10: a mysql, postgres or redis configuration that gives `Host`, `Port` and an
address in `Addrs` yields a connection string that holds `host:port` but not the
address, and a mysql configuration that gives only the address yields one without
it, whereas the mongodb branch does put every address into the string. -/
theorem ConnString_drops_Addrs :
    (sampleConfig "mysql").ConnString secondsString = "app@tcp(db1:3306)/orders" ∧
    ¬ Contains ((sampleConfig "mysql").ConnString secondsString) "db2:3307" ∧
    (sampleConfig "postgres").ConnString secondsString = "postgres://app@db1:3306/orders" ∧
    ¬ Contains ((sampleConfig "postgres").ConnString secondsString) "db2:3307" ∧
    (sampleConfig "redis").ConnString secondsString = "db1:3306" ∧
    (addrsOnlyConfig "mysql").ConnString secondsString = "app@tcp()/orders" ∧
    ¬ Contains ((addrsOnlyConfig "mysql").ConnString secondsString) "db2:3307" ∧
    (sampleConfig "mongodb").ConnString secondsString =
      "mongodb://app@db1:3306,db2:3307/orders" ∧
    Contains ((sampleConfig "mongodb").ConnString secondsString) "db1:3306" ∧
    Contains ((sampleConfig "mongodb").ConnString secondsString) "db2:3307" := by
  decide

/-! ## The scoped-lock helper -/

theorem Lock_of_some {σ α : Type} (m : Locker σ) (w : LockState σ α) (l : σ)
    (h : m.Lock w.locker = some l) :
    Lock m w = some (fun w2 => m.callUnlock w2,
      { locker := l, calls := w.calls ++ [LockerCall.Lock], rest := w.rest }) := by
  unfold Lock Locker.callLock
  rw [h]

theorem callUnlock_eq {σ α : Type} (m : Locker σ) (v : LockState σ α) :
    m.callUnlock v = (m.Unlock v.locker).map
      (fun l => { locker := l, calls := v.calls ++ [LockerCall.Unlock], rest := v.rest }) := by
  unfold Locker.callUnlock
  cases m.Unlock v.locker <;> rfl

/-- C11: `Lock(m)` calls `m.Lock` once and returns; the function it returns calls
`m.Unlock` once at each invocation and changes nothing else; `Un(f)` runs `f`
once; hence, for a locker that honours the mutual-exclusion contract and starts
unlocked, a function that starts with `defer Un(Lock(m))` runs its block with the
lock held and ends, by return or by panic, with the locker unlocked, after exactly
one `Lock` and one `Unlock`. -/
theorem Un_Lock_releases {σ α : Type} (m : Locker σ) (held : σ → Bool)
    (hlock : ∀ s, held s = false → ∃ s', m.Lock s = some s' ∧ held s' = true)
    (hunlock : ∀ s, held s = true → ∃ s', m.Unlock s = some s' ∧ held s' = false)
    (w : LockState σ α) (hfree : held w.locker = false)
    (block : LockState σ α → BlockExit × α) :
    ∃ unlock w1 w2,
      Lock m w = some (unlock, w1) ∧
      m.Lock w.locker = some w1.locker ∧
      w1.calls = w.calls ++ [LockerCall.Lock] ∧
      w1.rest = w.rest ∧
      (∀ v, unlock v = (m.Unlock v.locker).map
        (fun l => { locker := l, calls := v.calls ++ [LockerCall.Unlock], rest := v.rest })) ∧
      (∀ (f : LockState σ α → Option (LockState σ α)) v, Un f v = f v) ∧
      held w1.locker = true ∧
      deferUnLock m block w = some ((block w1).1, w2) ∧
      m.Unlock w1.locker = some w2.locker ∧
      held w2.locker = false ∧
      w2.calls = w.calls ++ [LockerCall.Lock, LockerCall.Unlock] ∧
      w2.rest = (block w1).2 := by
  obtain ⟨l1, hl1, hheld1⟩ := hlock w.locker hfree
  obtain ⟨l2, hl2, hheld2⟩ := hunlock l1 hheld1
  have hL := Lock_of_some m w l1 hl1
  refine ⟨fun w2 => m.callUnlock w2,
    LockState.mk l1 (w.calls ++ [LockerCall.Lock]) w.rest,
    LockState.mk l2 (w.calls ++ [LockerCall.Lock, LockerCall.Unlock])
      (block (LockState.mk l1 (w.calls ++ [LockerCall.Lock]) w.rest)).2,
    hL, hl1, rfl, rfl, ?_, ?_, hheld1, ?_, hl2, hheld2, rfl, rfl⟩
  · intro v
    exact callUnlock_eq m v
  · intro f v
    rfl
  · unfold deferUnLock
    rw [hL]
    simp only [Un, Locker.callUnlock]
    rw [hl2]
    simp

/-- C11, at a `sync.Mutex` that starts free and a block that panics: the block
runs once, and the mutex is free again after one `Lock` and one `Unlock`. -/
theorem Un_Lock_releases_witness :
    ∃ w2, deferUnLock Mutex panickingBlock { locker := false, calls := [], rest := 0 } =
        some (BlockExit.panicked "boom", w2) ∧
      w2.locker = false ∧
      w2.calls = [LockerCall.Lock, LockerCall.Unlock] ∧
      w2.rest = 1 := by
  obtain ⟨unlock, w1, w2, -, -, -, hrest1, -, -, -, hdefer, -, hheld2, hcalls2, hrest2⟩ :=
    Un_Lock_releases Mutex id
      (by intro s hs; cases s <;> simp_all [Mutex])
      (by intro s hs; cases s <;> simp_all [Mutex])
      ({ locker := false, calls := [], rest := 0 } : LockState Bool Nat) rfl panickingBlock
  refine ⟨w2, hdefer, hheld2, hcalls2, ?_⟩
  rw [hrest2]
  show w1.rest + 1 = 1
  rw [hrest1]

end GoRanger
